import Mathlib

/-
  A shallow embedding of the Raft node implemented in src/raft/raft.go.
  The raftState helper methods (getLastLog, getLog, getLogs, appendLogs, deleteLogs,
  toFollower, toCandidate, toLeader, voteFor, setCommitIndex, applyLogs,
  setNextAndMatchIndex, the persister and errNotLeader) live in a repository file that
  is not provided; those definitions are modelled from the specification (spec.md) and
  carry a doc comment saying so.  Wall-clock time (lastHeartbeat, timers), logging,
  persistence and the network transport are not modelled; the handlers are embedded as
  pure state-transition functions.
-/

namespace Raft

/-- A log entry: (id, term, payload), as pb.Entry with fields Id, Term, Data. -/
structure Entry where
  id : Nat
  term : Nat
  data : List Nat
  deriving DecidableEq, Repr

/-- Node roles of the role-driven loop in raft.go (Follower, Candidate, Leader). -/
inductive Role where
  | Follower
  | Candidate
  | Leader
  deriving DecidableEq, Repr

/-- The mutable node state: the raftState fields initialized in NewRaft (raft.go lines
34-57) together with the node id and the peer id list from the Raft struct.  Go map
lookups on a missing key yield 0, so nextIndex and matchIndex are total functions
defaulting to 0. -/
structure RaftState where
  state : Role
  currentTerm : Nat
  votedFor : Nat
  logs : List Entry
  commitIndex : Nat
  lastApplied : Nat
  nextIndex : Nat → Nat
  matchIndex : Nat → Nat
  id : Nat
  peers : List Nat

/-- pb.AppendEntriesRequest. -/
structure AppendEntriesRequest where
  term : Nat
  leaderId : Nat
  prevLogId : Nat
  prevLogTerm : Nat
  entries : List Entry
  leaderCommitId : Nat
  deriving DecidableEq, Repr

/-- pb.AppendEntriesResponse. -/
structure AppendEntriesResponse where
  term : Nat
  success : Bool
  deriving DecidableEq, Repr

/-- pb.RequestVoteRequest. -/
structure RequestVoteRequest where
  term : Nat
  candidateId : Nat
  lastLogId : Nat
  lastLogTerm : Nat
  deriving DecidableEq, Repr

/-- pb.RequestVoteResponse. -/
structure RequestVoteResponse where
  term : Nat
  voteGranted : Bool
  deriving DecidableEq, Repr

/-- A RequestVote reply paired with the replying peer (voteResult, raft.go lines
283-286). -/
structure VoteResult where
  term : Nat
  voteGranted : Bool
  peerId : Nat
  deriving DecidableEq, Repr

/-- An AppendEntries reply paired with the originating request and the peer
(appendEntriesResult, raft.go lines 409-413). -/
structure AppendEntriesResult where
  term : Nat
  success : Bool
  req : AppendEntriesRequest
  peerId : Nat
  deriving DecidableEq, Repr

/-- Modelled from the spec: the NotLeader error returned by ApplyCommand (§7); the
constant errNotLeader is defined in a repository file not under src/. -/
inductive RaftError where
  | errNotLeader
  deriving DecidableEq, Repr

/-- Modelled from the spec: `getLastLog` (tail lookup, §3 log operations) is defined in a
repository file not under src/; per §8 it returns (0, 0) on an empty log and the
(id, term) of the last entry otherwise. -/
def getLastLog (logs : List Entry) : Nat × Nat :=
  match logs.getLast? with
  | none => (0, 0)
  | some e => (e.id, e.term)

/-- Modelled from the spec: `getLog` (lookup by index, §3 log operations) is defined in a
repository file not under src/; it returns the entry whose id equals the argument. -/
def getLog (logs : List Entry) (i : Nat) : Option Entry :=
  logs.find? (fun e => decide (e.id = i))

/-- The protobuf GetTerm getter applied to the result of getLog: an absent (nil) entry
reads as term 0 (raft.go line 123). -/
def optTerm : Option Entry → Nat
  | none => 0
  | some e => e.term

/-- Modelled from the spec: `getLogs` (slice-from, §3 log operations) is defined in a
repository file not under src/; it returns every entry with id at least fromId. -/
def getLogs (logs : List Entry) (fromId : Nat) : List Entry :=
  logs.filter (fun e => decide (fromId ≤ e.id))

/-- Modelled from the spec: `deleteLogs` is defined in a repository file not under src/;
per §4.5 step 6 it deletes all local log entries with id greater than prevLogId. -/
def deleteLogs (logs : List Entry) (prevLogId : Nat) : List Entry :=
  logs.filter (fun e => decide (e.id ≤ prevLogId))

/-- Modelled from the spec: `appendLogs` is defined in a repository file not under src/;
it appends the new entries in order (§4.5 step 6) and persists, which has no in-memory
effect. -/
def appendLogs (logs newLogs : List Entry) : List Entry := logs ++ newLogs

/-- Modelled from the spec: `toFollower` is defined in a repository file not under src/;
per §4.5 step 3 it sets the role to Follower, adopts the given term and clears
votedFor. -/
def toFollower (s : RaftState) (term : Nat) : RaftState :=
  { s with state := Role.Follower, currentTerm := term, votedFor := 0 }

/-- Modelled from the spec: `toCandidate` is defined in a repository file not under src/;
it sets the role to Candidate (§4.2); the term increment and the self vote happen in
voteForSelf (raft.go lines 334-341). -/
def toCandidate (s : RaftState) : RaftState := { s with state := Role.Candidate }

/-- Modelled from the spec: `toLeader` is defined in a repository file not under src/; it
sets the role to Leader (§4.3). -/
def toLeader (s : RaftState) : RaftState := { s with state := Role.Leader }

/-- Modelled from the spec: `voteFor` is defined in a repository file not under src/; it
records the vote and persists, and with the self flag (used by voteForSelf, §4.3
"increment currentTerm; vote for self; persist") it also increments currentTerm. -/
def voteFor (s : RaftState) (candidateId : Nat) (self : Bool) : RaftState :=
  { s with currentTerm := if self then s.currentTerm + 1 else s.currentTerm,
           votedFor := candidateId }

/-- Modelled from the spec: `setCommitIndex` is defined in a repository file not under
src/; it stores the commit index. -/
def setCommitIndex (s : RaftState) (i : Nat) : RaftState := { s with commitIndex := i }

/-- Modelled from the spec: `applyLogs` is defined in a repository file not under src/;
per §4.7 it delivers the entries in (lastApplied, commitIndex] in order and advances
lastApplied to commitIndex.  Channel delivery is not modelled, only the lastApplied
effect. -/
def applyLogs (s : RaftState) : RaftState := { s with lastApplied := s.commitIndex }

/-- Modelled from the spec: `setNextAndMatchIndex` is defined in a repository file not
under src/; it stores the per-peer indices, and per §4.4 "decrement nextIndex[p] by 1
(floor 1)" the stored nextIndex is clamped to at least 1. -/
def setNextAndMatchIndex (s : RaftState) (peerId nextIdx matchIdx : Nat) : RaftState :=
  { s with nextIndex := fun p => if p = peerId then max nextIdx 1 else s.nextIndex p,
           matchIndex := fun p => if p = peerId then matchIdx else s.matchIndex p }

/-- Unsigned 64-bit decrement with wraparound: the uint64 subtraction
`r.nextIndex[result.peerId] - 1` at raft.go line 527. -/
def sub64 (a : Nat) : Nat := (a + (2 ^ 64 - 1)) % 2 ^ 64

/-- Client submit: applyCommand, raft.go lines 64-81. -/
def applyCommand (s : RaftState) (data : List Nat) :
    Except RaftError Entry × RaftState :=
  if s.state ≠ Role.Leader then (Except.error RaftError.errNotLeader, s)
  else
    let newEntry : Entry := ⟨(getLastLog s.logs).1 + 1, s.currentTerm, data⟩
    (Except.ok newEntry, { s with logs := appendLogs s.logs [newEntry] })

/-- Steps A.3 and A.4 of the appendEntries handler (raft.go lines 103-115): step up on a
newer request term, then fall back to follower on a same-term AppendEntries when not
already a follower. -/
def stepDown (s : RaftState) (term : Nat) : RaftState :=
  let s1 := if s.currentTerm < term then toFollower s term else s
  if term = s1.currentTerm ∧ s1.state ≠ Role.Follower then toFollower s1 term else s1

/-- The log-consistency rejection condition of raft.go lines 119-126: the check only runs
when both prevLogId and prevLogTerm are nonzero, and rejects when the term of the local
entry at prevLogId (0 when absent) differs from prevLogTerm. -/
def consistencyFails (s : RaftState) (req : AppendEntriesRequest) : Prop :=
  req.prevLogId ≠ 0 ∧ req.prevLogTerm ≠ 0 ∧
    optTerm (getLog s.logs req.prevLogId) ≠ req.prevLogTerm

instance (s : RaftState) (req : AppendEntriesRequest) :
    Decidable (consistencyFails s req) := by
  unfold consistencyFails; infer_instance

/-- Steps B.3 and B.4 of the appendEntries handler (raft.go lines 128-136): when the
entries list is non-empty, delete the suffix after prevLogId and append the incoming
entries. -/
def applyEntriesToLog (s : RaftState) (req : AppendEntriesRequest) : RaftState :=
  if req.entries ≠ [] then
    { s with logs := appendLogs (deleteLogs s.logs req.prevLogId) req.entries }
  else s

/-- Step B.5 of the appendEntries handler (raft.go lines 142-151): when leaderCommit is
ahead, set commitIndex to min(leaderCommit, last entry id) and apply. -/
def updateCommitFromLeader (s : RaftState) (req : AppendEntriesRequest) : RaftState :=
  if s.commitIndex < req.leaderCommitId then
    applyLogs (if req.leaderCommitId < (getLastLog s.logs).1
      then setCommitIndex s req.leaderCommitId
      else setCommitIndex s (getLastLog s.logs).1)
  else s

/-- The AppendEntries RPC handler: appendEntries, raft.go lines 91-154 (lastHeartbeat is
not modelled). -/
def appendEntries (s : RaftState) (req : AppendEntriesRequest) :
    AppendEntriesResponse × RaftState :=
  if req.term < s.currentTerm then ({ term := s.currentTerm, success := false }, s)
  else
    let s1 := stepDown s req.term
    if consistencyFails s1 req then ({ term := s1.currentTerm, success := false }, s1)
    else
      let s3 := updateCommitFromLeader (applyEntriesToLog s1 req) req
      ({ term := s3.currentTerm, success := true }, s3)

/-- The RequestVote RPC handler: requestVote, raft.go lines 163-203 (lastHeartbeat is not
modelled).  Line 181 rejects whenever votedFor is nonzero, even when it equals the
requesting candidate. -/
def requestVote (s : RaftState) (req : RequestVoteRequest) :
    RequestVoteResponse × RaftState :=
  if req.term < s.currentTerm then ({ term := s.currentTerm, voteGranted := false }, s)
  else
    let s1 := if s.currentTerm < req.term then toFollower s req.term else s
    if s1.votedFor ≠ 0 then ({ term := s1.currentTerm, voteGranted := false }, s1)
    else
      if req.lastLogTerm < (getLastLog s1.logs).2 ∨
          (req.lastLogTerm = (getLastLog s1.logs).2 ∧
            req.lastLogId < (getLastLog s1.logs).1) then
        ({ term := s1.currentTerm, voteGranted := false }, s1)
      else
        let s2 := voteFor s1 req.candidateId false
        ({ term := s2.currentTerm, voteGranted := true }, s2)

/-- Candidate vote-reply processing: handleVoteResult, raft.go lines 383-405; returns the
updated state and the updated grantedVotes tally. -/
def handleVoteResult (s : RaftState) (grantedVotes votesNeeded : Nat)
    (vote : VoteResult) : RaftState × Nat :=
  let s1 := if s.currentTerm < vote.term then toFollower s vote.term else s
  let g := if vote.voteGranted then grantedVotes + 1 else grantedVotes
  (if votesNeeded < g then toLeader s1 else s1, g)

/-- Self vote on entering candidacy: voteForSelf, raft.go lines 334-341. -/
def voteForSelf (s : RaftState) (grantedVotes : Nat) : RaftState × Nat :=
  (voteFor s s.id true, grantedVotes + 1)

/-- The vote-collecting phase of runCandidate (raft.go lines 295-331): votesNeeded is
(len(peers)+1)/2, the node votes for itself, then processes the vote replies it
receives in order; with no replies the state is just the post-self-vote state. -/
def electionPhase (s : RaftState) (replies : List VoteResult) : RaftState × Nat :=
  let votesNeeded := (s.peers.length + 1) / 2
  replies.foldl (fun acc v => handleVoteResult acc.1 acc.2 votesNeeded v)
    (voteForSelf (toCandidate s) 0)

/-- The commitment scan of handleAppendEntriesResult (raft.go lines 542-567): walk the
uncommitted entries from highest to lowest, commit the first entry replicated on a
strict majority (the term test sits inside the per-peer count) and stop. -/
def findCommitFrom (s : RaftState) (majority : Nat) : List Entry → RaftState
  | [] => s
  | e :: rest =>
    let replicas := 1 + (s.peers.filter
      (fun p => decide (e.id ≤ s.matchIndex p ∧ e.term = s.currentTerm))).length
    if majority < replicas then applyLogs (setCommitIndex s e.id)
    else findCommitFrom s majority rest

/-- Leader append-reply processing: handleAppendEntriesResult, raft.go lines 511-567. -/
def handleAppendEntriesResult (s : RaftState) (result : AppendEntriesResult) :
    RaftState :=
  let s1 := if s.currentTerm < result.term then toFollower s result.term else s
  let s2 :=
    if result.success = false then
      setNextAndMatchIndex s1 result.peerId (sub64 (s1.nextIndex result.peerId))
        (s1.matchIndex result.peerId)
    else if result.req.entries.length ≠ 0 then
      setNextAndMatchIndex s1 result.peerId
        (s1.nextIndex result.peerId + result.req.entries.length)
        (s1.nextIndex result.peerId + result.req.entries.length - 1)
    else s1
  findCommitFrom s2 ((s2.peers.length + 1) / 2)
    (getLogs s2.logs (s2.commitIndex + 1)).reverse

/-- Iterated processing of the same AppendEntries reply. -/
def iterFailures (s : RaftState) (result : AppendEntriesResult) : Nat → RaftState
  | 0 => s
  | n + 1 => handleAppendEntriesResult (iterFailures s result n) result

/-- Fresh node state: NewRaft, raft.go lines 34-57. -/
def newRaft (id : Nat) (peers : List Nat) : RaftState :=
  { state := Role.Follower, currentTerm := 0, votedFor := 0, logs := [],
    commitIndex := 0, lastApplied := 0, nextIndex := fun _ => 0,
    matchIndex := fun _ => 0, id := id, peers := peers }

/-- A concrete follower state used by concrete instances below. -/
def baseState : RaftState :=
  { state := Role.Follower, currentTerm := 0, votedFor := 0, logs := [],
    commitIndex := 0, lastApplied := 0, nextIndex := fun _ => 0,
    matchIndex := fun _ => 0, id := 1, peers := [2, 3] }

/-! Frame lemmas for the state transformers. -/

@[simp] theorem toFollower_state (s : RaftState) (t : Nat) :
    (toFollower s t).state = Role.Follower := rfl

@[simp] theorem toFollower_currentTerm (s : RaftState) (t : Nat) :
    (toFollower s t).currentTerm = t := rfl

@[simp] theorem toFollower_votedFor (s : RaftState) (t : Nat) :
    (toFollower s t).votedFor = 0 := rfl

@[simp] theorem toFollower_logs (s : RaftState) (t : Nat) :
    (toFollower s t).logs = s.logs := rfl

@[simp] theorem toFollower_commitIndex (s : RaftState) (t : Nat) :
    (toFollower s t).commitIndex = s.commitIndex := rfl

@[simp] theorem toFollower_lastApplied (s : RaftState) (t : Nat) :
    (toFollower s t).lastApplied = s.lastApplied := rfl

@[simp] theorem toFollower_nextIndex (s : RaftState) (t : Nat) :
    (toFollower s t).nextIndex = s.nextIndex := rfl

@[simp] theorem toFollower_matchIndex (s : RaftState) (t : Nat) :
    (toFollower s t).matchIndex = s.matchIndex := rfl

@[simp] theorem toFollower_peers (s : RaftState) (t : Nat) :
    (toFollower s t).peers = s.peers := rfl

@[simp] theorem toLeader_state (s : RaftState) : (toLeader s).state = Role.Leader := rfl

@[simp] theorem toLeader_currentTerm (s : RaftState) :
    (toLeader s).currentTerm = s.currentTerm := rfl

@[simp] theorem applyLogs_logs (s : RaftState) : (applyLogs s).logs = s.logs := rfl

@[simp] theorem applyLogs_commitIndex (s : RaftState) :
    (applyLogs s).commitIndex = s.commitIndex := rfl

@[simp] theorem applyLogs_lastApplied (s : RaftState) :
    (applyLogs s).lastApplied = s.commitIndex := rfl

@[simp] theorem setCommitIndex_commitIndex (s : RaftState) (i : Nat) :
    (setCommitIndex s i).commitIndex = i := rfl

@[simp] theorem setCommitIndex_logs (s : RaftState) (i : Nat) :
    (setCommitIndex s i).logs = s.logs := rfl

@[simp] theorem setCommitIndex_lastApplied (s : RaftState) (i : Nat) :
    (setCommitIndex s i).lastApplied = s.lastApplied := rfl

/-- Step A.3/A.4 either leaves the state alone or is a toFollower at the request term. -/
theorem stepDown_cases (s : RaftState) (t : Nat) :
    stepDown s t = s ∨ stepDown s t = toFollower s t := by
  unfold stepDown
  by_cases h1 : s.currentTerm < t
  · right
    simp only [if_pos h1]
    rw [if_neg]
    rintro ⟨-, h3⟩
    exact h3 rfl
  · simp only [if_neg h1]
    by_cases h2 : t = s.currentTerm ∧ s.state ≠ Role.Follower
    · right; rw [if_pos h2]
    · left; rw [if_neg h2]

theorem stepDown_logs (s : RaftState) (t : Nat) : (stepDown s t).logs = s.logs := by
  rcases stepDown_cases s t with h | h <;> rw [h] <;> rfl

theorem stepDown_commitIndex (s : RaftState) (t : Nat) :
    (stepDown s t).commitIndex = s.commitIndex := by
  rcases stepDown_cases s t with h | h <;> rw [h] <;> rfl

theorem stepDown_lastApplied (s : RaftState) (t : Nat) :
    (stepDown s t).lastApplied = s.lastApplied := by
  rcases stepDown_cases s t with h | h <;> rw [h] <;> rfl

theorem stepDown_currentTerm_of_le (s : RaftState) (t : Nat) (h : s.currentTerm ≤ t) :
    (stepDown s t).currentTerm = t := by
  unfold stepDown
  by_cases h1 : s.currentTerm < t
  · simp only [if_pos h1]
    split <;> rfl
  · have he : s.currentTerm = t := Nat.le_antisymm h (Nat.not_lt.mp h1)
    simp only [if_neg h1]
    split
    · rfl
    · exact he

theorem stepDown_state_of_le (s : RaftState) (t : Nat) (h : s.currentTerm ≤ t) :
    (stepDown s t).state = Role.Follower := by
  unfold stepDown
  by_cases h1 : s.currentTerm < t
  · simp only [if_pos h1]
    split <;> rfl
  · have he : s.currentTerm = t := Nat.le_antisymm h (Nat.not_lt.mp h1)
    simp only [if_neg h1]
    by_cases h2 : t = s.currentTerm ∧ s.state ≠ Role.Follower
    · rw [if_pos h2]; rfl
    · rw [if_neg h2]
      by_contra hst
      exact h2 ⟨he.symm, hst⟩

theorem stepDown_eq_self (s : RaftState) (t : Nat) (h1 : s.currentTerm = t)
    (h2 : s.state = Role.Follower) : stepDown s t = s := by
  unfold stepDown
  rw [if_neg (by omega : ¬ s.currentTerm < t), if_neg]
  rintro ⟨-, hB⟩
  exact hB h2

/-! Frame lemmas for the appendEntries stages. -/

theorem applyEntriesToLog_currentTerm (s : RaftState) (req : AppendEntriesRequest) :
    (applyEntriesToLog s req).currentTerm = s.currentTerm := by
  unfold applyEntriesToLog; split <;> rfl

theorem applyEntriesToLog_state (s : RaftState) (req : AppendEntriesRequest) :
    (applyEntriesToLog s req).state = s.state := by
  unfold applyEntriesToLog; split <;> rfl

theorem applyEntriesToLog_commitIndex (s : RaftState) (req : AppendEntriesRequest) :
    (applyEntriesToLog s req).commitIndex = s.commitIndex := by
  unfold applyEntriesToLog; split <;> rfl

theorem applyEntriesToLog_lastApplied (s : RaftState) (req : AppendEntriesRequest) :
    (applyEntriesToLog s req).lastApplied = s.lastApplied := by
  unfold applyEntriesToLog; split <;> rfl

theorem applyEntriesToLog_logs (s : RaftState) (req : AppendEntriesRequest) :
    (applyEntriesToLog s req).logs =
      if req.entries ≠ [] then deleteLogs s.logs req.prevLogId ++ req.entries
      else s.logs := by
  unfold applyEntriesToLog appendLogs; split <;> simp_all

theorem updateCommitFromLeader_logs (s : RaftState) (req : AppendEntriesRequest) :
    (updateCommitFromLeader s req).logs = s.logs := by
  unfold updateCommitFromLeader
  split
  · split <;> rfl
  · rfl

theorem updateCommitFromLeader_currentTerm (s : RaftState) (req : AppendEntriesRequest) :
    (updateCommitFromLeader s req).currentTerm = s.currentTerm := by
  unfold updateCommitFromLeader
  split
  · split <;> rfl
  · rfl

theorem updateCommitFromLeader_state (s : RaftState) (req : AppendEntriesRequest) :
    (updateCommitFromLeader s req).state = s.state := by
  unfold updateCommitFromLeader
  split
  · split <;> rfl
  · rfl

theorem updateCommitFromLeader_commitIndex (s : RaftState) (req : AppendEntriesRequest) :
    (updateCommitFromLeader s req).commitIndex =
      if s.commitIndex < req.leaderCommitId then
        (if req.leaderCommitId < (getLastLog s.logs).1 then req.leaderCommitId
         else (getLastLog s.logs).1)
      else s.commitIndex := by
  unfold updateCommitFromLeader
  split
  · split <;> rfl
  · rfl

/-! Frame lemmas for the commitment scan. -/

theorem findCommitFrom_nextIndex (s : RaftState) (m : Nat) (l : List Entry) :
    (findCommitFrom s m l).nextIndex = s.nextIndex := by
  induction l with
  | nil => rfl
  | cons e rest ih =>
    simp only [findCommitFrom]
    split
    · rfl
    · exact ih

theorem findCommitFrom_matchIndex (s : RaftState) (m : Nat) (l : List Entry) :
    (findCommitFrom s m l).matchIndex = s.matchIndex := by
  induction l with
  | nil => rfl
  | cons e rest ih =>
    simp only [findCommitFrom]
    split
    · rfl
    · exact ih

/-! Auxiliary arithmetic. -/

theorem sub64_eq (a : Nat) (h1 : 1 ≤ a) (h2 : a < 2 ^ 64) : sub64 a = a - 1 := by
  unfold sub64
  have h3 : a + (2 ^ 64 - 1) = (a - 1) + 2 ^ 64 := by omega
  rw [h3, Nat.add_mod_right]
  exact Nat.mod_eq_of_lt (by omega)

/-! Claims C1 to C5. -/

/-- C1: the claim says a repeated RequestVote from the candidate the node already voted
for in this term, with an up-to-date log, is granted (spec §4.6 step 3 and the handler's
own comment at raft.go line 179: grant when votedFor is null or candidateId).  The code
at raft.go line 181 instead rejects whenever votedFor is nonzero.  Evaluation at the
failing input: currentTerm 1, votedFor 2, empty log, request from candidate 2 at term 1
with an up-to-date log is answered (1, false) and votedFor stays 2. -/
theorem C1_repeated_vote_same_candidate_rejected :
    (requestVote { baseState with currentTerm := 1, votedFor := 2 }
        { term := 1, candidateId := 2, lastLogId := 5, lastLogTerm := 1 }).1
      = { term := 1, voteGranted := false } ∧
    (requestVote { baseState with currentTerm := 1, votedFor := 2 }
        { term := 1, candidateId := 2, lastLogId := 5, lastLogTerm := 1 }).2.votedFor
      = 2 := by
  exact ⟨by decide, by decide⟩

/-- C2 counterexample: the claim says the consistency check runs for every request with
prevLogId > 0 regardless of prevLogTerm.  With an empty log and a request with
prevLogId 1 but prevLogTerm 0, no entry with id 1 exists, so the claim demands the reply
(currentTerm, false); the handler (raft.go line 119 requires prevLogTerm ≠ 0 as well)
skips the check and replies (currentTerm, true). -/
theorem C2_check_skipped_when_prevLogTerm_zero :
    (appendEntries baseState
        { term := 0, leaderId := 2, prevLogId := 1, prevLogTerm := 0, entries := [],
          leaderCommitId := 0 }).1
      = { term := 0, success := true } := by decide

/-- C2 amended: for every AppendEntries request with term not less than currentTerm,
prevLogId > 0 and prevLogTerm > 0, if the local log has no entry with id prevLogId or
that entry's term differs from prevLogTerm (equivalently, the nil-safe term read at
prevLogId differs from the nonzero prevLogTerm), the handler replies
(currentTerm, false) and leaves the log and commitIndex unchanged; when prevLogTerm = 0
the check is skipped. -/
theorem C2_consistency_check_requires_nonzero_terms (s : RaftState)
    (req : AppendEntriesRequest) (hterm : ¬ req.term < s.currentTerm)
    (hpid : req.prevLogId ≠ 0) (hpt : req.prevLogTerm ≠ 0)
    (hmis : optTerm (getLog s.logs req.prevLogId) ≠ req.prevLogTerm) :
    (appendEntries s req).1.success = false ∧
    (appendEntries s req).2.logs = s.logs ∧
    (appendEntries s req).2.commitIndex = s.commitIndex ∧
    (appendEntries s req).1.term = (appendEntries s req).2.currentTerm := by
  have hc : consistencyFails (stepDown s req.term) req :=
    ⟨hpid, hpt, by rw [stepDown_logs]; exact hmis⟩
  simp only [appendEntries, if_neg hterm, if_pos hc]
  simp [stepDown_logs, stepDown_commitIndex]

/-- A concrete state for the C2 witness: currentTerm 3, log with the single entry
(id 1, term 3). -/
def c2wState : RaftState := { baseState with currentTerm := 3, logs := [⟨1, 3, []⟩] }

/-- A concrete request for the C2 witness: same term, prevLogId 1 with a mismatched
nonzero prevLogTerm. -/
def c2wReq : AppendEntriesRequest :=
  { term := 3, leaderId := 2, prevLogId := 1, prevLogTerm := 2, entries := [],
    leaderCommitId := 0 }

/-- Witness for C2 amended at a concrete input. -/
theorem C2_consistency_check_requires_nonzero_terms_witness :
    (appendEntries c2wState c2wReq).1.success = false ∧
    (appendEntries c2wState c2wReq).2.logs = c2wState.logs ∧
    (appendEntries c2wState c2wReq).2.commitIndex = c2wState.commitIndex ∧
    (appendEntries c2wState c2wReq).1.term
      = (appendEntries c2wState c2wReq).2.currentTerm :=
  C2_consistency_check_requires_nonzero_terms c2wState c2wReq (by decide) (by decide)
    (by decide) (by decide)

/-- C3 counterexample: the claim says a stale reply (term less than currentTerm) never
increments the vote tally.  A candidate at term 5 holding 1 vote that processes a
granted reply carrying term 1 ends with tally 2: raft.go line 393 counts every granted
flag without comparing terms. -/
theorem C3_stale_granted_reply_is_counted :
    (handleVoteResult { baseState with state := Role.Candidate, currentTerm := 5 } 1 5
        { term := 1, voteGranted := true, peerId := 2 }).2 = 2 := by decide

/-- C3 amended: for every RequestVote reply processed by a candidate, a higher reply
term still makes the node a Follower of that term, but the granted flag is counted
regardless of the reply's term (stale and higher-term granted replies included); the
tally increments exactly on granted replies, and the node becomes Leader exactly when
the updated tally exceeds votesNeeded, even right after falling back to Follower. -/
theorem C3_vote_reply_full_behavior (s : RaftState) (g needed : Nat) (v : VoteResult) :
    (handleVoteResult s g needed v).2 = g + (if v.voteGranted then 1 else 0) ∧
    (handleVoteResult s g needed v).1.currentTerm = max s.currentTerm v.term ∧
    (handleVoteResult s g needed v).1.state =
      (if needed < g + (if v.voteGranted then 1 else 0) then Role.Leader
       else if s.currentTerm < v.term then Role.Follower else s.state) := by
  have hmax : max s.currentTerm v.term
      = (if s.currentTerm < v.term then v.term else s.currentTerm) := by
    split
    · exact Nat.max_eq_right (Nat.le_of_lt (by assumption))
    · exact Nat.max_eq_left (Nat.not_lt.mp (by assumption))
  rw [hmax]
  unfold handleVoteResult
  cases hg : v.voteGranted <;> by_cases h1 : s.currentTerm < v.term <;>
    refine ⟨?_, ?_, ?_⟩ <;> simp [hg, h1] <;> try (split <;> simp)

/-- Leader state for the C4 instances: one peer (id 2), nextIndex all 1. -/
def c4State : RaftState :=
  { baseState with
      state := Role.Leader
      currentTerm := 1
      votedFor := 1
      nextIndex := fun _ => 1
      peers := [2] }

/-- A successful AppendEntries reply from peer 2 whose originating request carried
prevLogId 0 and one entry. -/
def c4Result : AppendEntriesResult :=
  { term := 1
    success := true
    req := { term := 1, leaderId := 1, prevLogId := 0, prevLogTerm := 0,
             entries := [⟨1, 1, []⟩], leaderCommitId := 0 }
    peerId := 2 }

/-- C4 counterexample: the claim says matchIndex[p] is a function of the originating
request (prevLogId + len(entries) = 1 here) and re-delivery of the same successful reply
leaves matchIndex and nextIndex unchanged.  Processing the same reply twice moves
matchIndex[2] from 1 to 2 and nextIndex[2] from 2 to 3, because raft.go line 536 adds
len(entries) to the current nextIndex. -/
theorem C4_redelivery_advances_indices_again :
    (handleAppendEntriesResult c4State c4Result).matchIndex 2 = 1 ∧
    (handleAppendEntriesResult c4State c4Result).nextIndex 2 = 2 ∧
    (handleAppendEntriesResult (handleAppendEntriesResult c4State c4Result)
        c4Result).matchIndex 2 = 2 ∧
    (handleAppendEntriesResult (handleAppendEntriesResult c4State c4Result)
        c4Result).nextIndex 2 = 3 := by
  refine ⟨by decide, by decide, by decide, by decide⟩

/-- C4 amended: for every successful AppendEntries reply with a non-empty entries list,
the leader sets nextIndex[p] to the current nextIndex[p] + len(entries) and matchIndex[p]
to that value minus 1; the update reads the leader's current nextIndex[p], not the
originating request's prevLogId, so re-delivery advances both again and the update is
not idempotent. -/
theorem C4_success_update_uses_current_nextIndex (s : RaftState)
    (res : AppendEntriesResult) (hs : res.success = true)
    (he : res.req.entries ≠ []) :
    (handleAppendEntriesResult s res).nextIndex res.peerId
        = s.nextIndex res.peerId + res.req.entries.length ∧
    (handleAppendEntriesResult s res).matchIndex res.peerId
        = s.nextIndex res.peerId + res.req.entries.length - 1 := by
  have hlen : res.req.entries.length ≠ 0 := by
    simpa [List.length_eq_zero] using he
  have hpos : 1 ≤ s.nextIndex res.peerId + res.req.entries.length := by
    have := Nat.pos_of_ne_zero hlen
    omega
  have h1n : (if s.currentTerm < res.term then toFollower s res.term else s).nextIndex
      = s.nextIndex := by split <;> rfl
  have h1m : (if s.currentTerm < res.term then toFollower s res.term else s).matchIndex
      = s.matchIndex := by split <;> rfl
  simp only [handleAppendEntriesResult, hs]
  rw [if_neg (by decide : ¬ (true = false)), if_pos hlen]
  constructor
  · rw [findCommitFrom_nextIndex]
    simp [setNextAndMatchIndex, h1n, Nat.max_eq_left hpos]
  · rw [findCommitFrom_matchIndex]
    simp [setNextAndMatchIndex, h1n]

/-- Witness for C4 amended at the concrete leader state and reply. -/
theorem C4_success_update_uses_current_nextIndex_witness :
    (handleAppendEntriesResult c4State c4Result).nextIndex c4Result.peerId
        = c4State.nextIndex c4Result.peerId + c4Result.req.entries.length ∧
    (handleAppendEntriesResult c4State c4Result).matchIndex c4Result.peerId
        = c4State.nextIndex c4Result.peerId + c4Result.req.entries.length - 1 :=
  C4_success_update_uses_current_nextIndex c4State c4Result rfl (by decide)

/-- One processing step of a failed AppendEntries reply: nextIndex is decremented with
floor 1 (the uint64 subtraction at raft.go line 527 followed by the clamp in
setNextAndMatchIndex), matchIndex is passed through unchanged. -/
theorem handleAER_failure_step (s : RaftState) (res : AppendEntriesResult)
    (hf : res.success = false) (h1 : 1 ≤ s.nextIndex res.peerId)
    (h2 : s.nextIndex res.peerId < 2 ^ 64) :
    (handleAppendEntriesResult s res).nextIndex res.peerId
        = max (s.nextIndex res.peerId - 1) 1 ∧
    (handleAppendEntriesResult s res).matchIndex res.peerId
        = s.matchIndex res.peerId := by
  have h1n : (if s.currentTerm < res.term then toFollower s res.term else s).nextIndex
      = s.nextIndex := by split <;> rfl
  have h1m : (if s.currentTerm < res.term then toFollower s res.term else s).matchIndex
      = s.matchIndex := by split <;> rfl
  simp only [handleAppendEntriesResult, hf, ite_true]
  constructor
  · rw [findCommitFrom_nextIndex]
    simp [setNextAndMatchIndex, h1n, sub64_eq _ h1 h2]
  · rw [findCommitFrom_matchIndex]
    simp [setNextAndMatchIndex, h1m]

/-- Invariant of iterated failed replies: nextIndex stays in [1, 2^64) and matchIndex
never changes. -/
theorem iterFailures_inv (s : RaftState) (res : AppendEntriesResult)
    (hf : res.success = false) (h1 : 1 ≤ s.nextIndex res.peerId)
    (h2 : s.nextIndex res.peerId < 2 ^ 64) (n : Nat) :
    1 ≤ (iterFailures s res n).nextIndex res.peerId ∧
    (iterFailures s res n).nextIndex res.peerId < 2 ^ 64 ∧
    (iterFailures s res n).matchIndex res.peerId = s.matchIndex res.peerId := by
  induction n with
  | zero => exact ⟨h1, h2, rfl⟩
  | succ n ih =>
    have step := handleAER_failure_step (iterFailures s res n) res hf ih.1 ih.2.1
    have hle : max ((iterFailures s res n).nextIndex res.peerId - 1) 1
        ≤ (iterFailures s res n).nextIndex res.peerId := by
      exact max_le (Nat.sub_le _ _) ih.1
    refine ⟨?_, ?_, ?_⟩
    · simp only [iterFailures]
      rw [step.1]
      exact le_max_right _ _
    · simp only [iterFailures]
      rw [step.1]
      omega
    · simp only [iterFailures]
      rw [step.2, ih.2.2]

/-- C5: every failed AppendEntries reply sets nextIndex[p] to max(nextIndex[p] - 1, 1)
(decrement by exactly 1, floored at 1) and leaves matchIndex[p] unchanged; across any
number of failed replies nextIndex[p] stays at least 1 and below 2^64, so the uint64
subtraction never wraps.  The floor lives in setNextAndMatchIndex, modelled from the
spec (§4.4 "decrement nextIndex[p] by 1 (floor 1)") since that helper is not under
src/. -/
theorem C5_failed_reply_decrements_with_floor (s : RaftState)
    (res : AppendEntriesResult) (hf : res.success = false)
    (h1 : 1 ≤ s.nextIndex res.peerId) (h2 : s.nextIndex res.peerId < 2 ^ 64)
    (n : Nat) :
    (iterFailures s res (n + 1)).nextIndex res.peerId
        = max ((iterFailures s res n).nextIndex res.peerId - 1) 1 ∧
    1 ≤ (iterFailures s res (n + 1)).nextIndex res.peerId ∧
    (iterFailures s res (n + 1)).nextIndex res.peerId < 2 ^ 64 ∧
    (iterFailures s res (n + 1)).matchIndex res.peerId
        = s.matchIndex res.peerId := by
  have inv := iterFailures_inv s res hf h1 h2 n
  have invs := iterFailures_inv s res hf h1 h2 (n + 1)
  have step := handleAER_failure_step (iterFailures s res n) res hf inv.1 inv.2.1
  exact ⟨by simpa only [iterFailures] using step.1, invs.1, invs.2.1, invs.2.2⟩

/-- Leader state for the C5 witness: one peer (id 2), nextIndex all 3. -/
def c5State : RaftState :=
  { baseState with state := Role.Leader, nextIndex := fun _ => 3, peers := [2] }

/-- A failed AppendEntries reply from peer 2. -/
def c5Result : AppendEntriesResult :=
  { term := 0
    success := false
    req := { term := 0, leaderId := 1, prevLogId := 0, prevLogTerm := 0, entries := [],
             leaderCommitId := 0 }
    peerId := 2 }

/-- Witness for C5 at a concrete leader state, reply and iteration count. -/
theorem C5_failed_reply_decrements_with_floor_witness :
    (iterFailures c5State c5Result (0 + 1)).nextIndex c5Result.peerId
        = max ((iterFailures c5State c5Result 0).nextIndex c5Result.peerId - 1) 1 ∧
    1 ≤ (iterFailures c5State c5Result (0 + 1)).nextIndex c5Result.peerId ∧
    (iterFailures c5State c5Result (0 + 1)).nextIndex c5Result.peerId < 2 ^ 64 ∧
    (iterFailures c5State c5Result (0 + 1)).matchIndex c5Result.peerId
        = c5State.matchIndex c5Result.peerId :=
  C5_failed_reply_decrements_with_floor c5State c5Result rfl (by decide) (by decide) 0

/-! List lemmas about the modelled log operations. -/

theorem getLastLog_append (l es : List Entry) (h : es ≠ []) :
    getLastLog (l ++ es) = getLastLog es := by
  unfold getLastLog
  rw [List.getLast?_append_of_ne_nil l h]

theorem filter_idem (p : Entry → Bool) (l : List Entry) :
    (l.filter p).filter p = l.filter p := by
  induction l with
  | nil => rfl
  | cons a l ih => cases hpa : p a <;> simp [List.filter_cons, hpa, ih]

theorem filter_eq_nil_of_false (p : Entry → Bool) (es : List Entry)
    (h : ∀ e ∈ es, p e = false) : es.filter p = [] := by
  induction es with
  | nil => rfl
  | cons a t ih =>
    simp [List.filter_cons, h a (by simp), ih (fun e he => h e (by simp [he]))]

theorem getLog_append_of_absent (l es : List Entry) (k : Nat)
    (h : ∀ e ∈ es, ¬ e.id = k) : getLog (l ++ es) k = getLog l k := by
  induction l with
  | nil =>
    simp only [List.nil_append]
    unfold getLog
    rw [List.find?_eq_none.mpr (fun e he => by simpa using h e he)]
    rfl
  | cons a l ih =>
    unfold getLog at *
    simp only [List.cons_append, List.find?_cons]
    cases hpa : decide (a.id = k) <;> simp [ih]

theorem getLog_deleteLogs_self (l : List Entry) (k : Nat) :
    getLog (deleteLogs l k) k = getLog l k := by
  induction l with
  | nil => rfl
  | cons a l ih =>
    unfold deleteLogs getLog at *
    simp only [List.filter_cons]
    by_cases ha : a.id = k
    · have hle : decide (a.id ≤ k) = true := by simp [ha]
      simp [hle, List.find?_cons, ha]
    · cases hle : decide (a.id ≤ k) <;> simp [List.find?_cons, ha, ih]

/-- Looking up prevLogId is unaffected by deleting the entries above it and appending
entries with larger ids. -/
theorem getLog_after_update (l es : List Entry) (k : Nat) (h : ∀ e ∈ es, k < e.id) :
    getLog (deleteLogs l k ++ es) k = getLog l k := by
  rw [getLog_append_of_absent _ es k (fun e he => by have := h e he; omega),
    getLog_deleteLogs_self]

/-- Deleting above prevLogId then appending entries with larger ids is idempotent. -/
theorem deleteLogs_after_update (l es : List Entry) (k : Nat)
    (h : ∀ e ∈ es, k < e.id) :
    deleteLogs (deleteLogs l k ++ es) k = deleteLogs l k := by
  unfold deleteLogs
  rw [List.filter_append, filter_idem,
    filter_eq_nil_of_false _ es (fun e he => by
      have := h e he
      simp only [decide_eq_false_iff_not]
      omega),
    List.append_nil]

/-! Unfolding lemmas for the three outcomes of the appendEntries handler. -/

theorem appendEntries_eq_reject_term (s : RaftState) (req : AppendEntriesRequest)
    (h : req.term < s.currentTerm) :
    appendEntries s req = ({ term := s.currentTerm, success := false }, s) := by
  simp only [appendEntries, if_pos h]

theorem appendEntries_eq_reject_consistency (s : RaftState)
    (req : AppendEntriesRequest) (hterm : ¬ req.term < s.currentTerm)
    (hchk : consistencyFails (stepDown s req.term) req) :
    appendEntries s req
      = ({ term := (stepDown s req.term).currentTerm, success := false },
         stepDown s req.term) := by
  simp only [appendEntries, if_neg hterm, if_pos hchk]

theorem appendEntries_eq_accept (s : RaftState) (req : AppendEntriesRequest)
    (hterm : ¬ req.term < s.currentTerm)
    (hchk : ¬ consistencyFails (stepDown s req.term) req) :
    appendEntries s req
      = ({ term := (updateCommitFromLeader
              (applyEntriesToLog (stepDown s req.term) req) req).currentTerm,
           success := true },
         updateCommitFromLeader (applyEntriesToLog (stepDown s req.term) req) req) := by
  simp only [appendEntries, if_neg hterm, if_neg hchk]

/-! Claim C6. -/

/-- Pre-state for the C6 counterexample: a follower whose three entries are all
committed. -/
def c6State : RaftState :=
  { baseState with
      currentTerm := 1
      logs := [⟨1, 1, []⟩, ⟨2, 1, []⟩, ⟨3, 1, []⟩]
      commitIndex := 3 }

/-- A conflicting AppendEntries that truncates after entry 1 and appends one entry. -/
def c6Req : AppendEntriesRequest :=
  { term := 2, leaderId := 2, prevLogId := 1, prevLogTerm := 1,
    entries := [⟨2, 2, []⟩], leaderCommitId := 0 }

/-- C6 counterexample: the pre-state satisfies 0 ≤ lastApplied ≤ commitIndex ≤ last log
id, the request is accepted (success true), yet afterwards commitIndex (3) exceeds the
id of the last log entry (2), so the claimed invariant fails after this accepted
AppendEntries. -/
theorem C6_truncation_breaks_commit_bound :
    (c6State.lastApplied ≤ c6State.commitIndex ∧
      c6State.commitIndex ≤ (getLastLog c6State.logs).1) ∧
    (appendEntries c6State c6Req).1.success = true ∧
    (appendEntries c6State c6Req).2.commitIndex = 3 ∧
    (getLastLog (appendEntries c6State c6Req).2.logs).1 = 2 ∧
    ¬ (appendEntries c6State c6Req).2.commitIndex
        ≤ (getLastLog (appendEntries c6State c6Req).2.logs).1 := by
  refine ⟨by decide, by decide, by decide, by decide, by decide⟩

/-- C6 amended: if before the call 0 ≤ lastApplied ≤ commitIndex ≤ id of the last log
entry, and additionally the request does not truncate the log below the current
commitIndex (entries is empty, or commitIndex is at most the id of the last incoming
entry), then after any appendEntries call the invariant still holds and commitIndex
does not decrease. -/
theorem C6_invariant_preserved (s : RaftState) (req : AppendEntriesRequest)
    (hA : s.lastApplied ≤ s.commitIndex)
    (hB : s.commitIndex ≤ (getLastLog s.logs).1)
    (hk : req.entries = [] ∨ s.commitIndex ≤ (getLastLog req.entries).1) :
    (appendEntries s req).2.lastApplied ≤ (appendEntries s req).2.commitIndex ∧
    (appendEntries s req).2.commitIndex
        ≤ (getLastLog (appendEntries s req).2.logs).1 ∧
    s.commitIndex ≤ (appendEntries s req).2.commitIndex := by
  by_cases hterm : req.term < s.currentTerm
  · rw [appendEntries_eq_reject_term s req hterm]
    exact ⟨hA, hB, Nat.le_refl _⟩
  · by_cases hchk : consistencyFails (stepDown s req.term) req
    · rw [appendEntries_eq_reject_consistency s req hterm hchk]
      dsimp only
      rw [stepDown_logs, stepDown_commitIndex, stepDown_lastApplied]
      exact ⟨hA, hB, Nat.le_refl _⟩
    · rw [appendEntries_eq_accept s req hterm hchk]
      dsimp only
      have h2ci : (applyEntriesToLog (stepDown s req.term) req).commitIndex
          = s.commitIndex := by
        rw [applyEntriesToLog_commitIndex, stepDown_commitIndex]
      have h2la : (applyEntriesToLog (stepDown s req.term) req).lastApplied
          = s.lastApplied := by
        rw [applyEntriesToLog_lastApplied, stepDown_lastApplied]
      have h2last : s.commitIndex
          ≤ (getLastLog (applyEntriesToLog (stepDown s req.term) req).logs).1 := by
        rw [applyEntriesToLog_logs, stepDown_logs]
        split
        · rename_i hne
          rcases hk with he | hk2
          · exact absurd he hne
          · rw [getLastLog_append _ _ hne]
            exact hk2
        · exact hB
      rw [updateCommitFromLeader_logs]
      rw [updateCommitFromLeader_commitIndex, h2ci]
      by_cases hc : s.commitIndex < req.leaderCommitId
      · rw [if_pos hc]
        unfold updateCommitFromLeader
        rw [if_pos (by rw [h2ci]; exact hc)]
        by_cases hl : req.leaderCommitId
            < (getLastLog (applyEntriesToLog (stepDown s req.term) req).logs).1
        · rw [if_pos hl, if_pos hl]
          refine ⟨Nat.le_refl _, Nat.le_of_lt hl, Nat.le_of_lt hc⟩
        · rw [if_neg hl, if_neg hl]
          exact ⟨Nat.le_refl _, Nat.le_refl _, h2last⟩
      · rw [if_neg hc]
        unfold updateCommitFromLeader
        rw [if_neg (by rw [h2ci]; exact hc)]
        rw [h2la]
        exact ⟨hA, h2last, Nat.le_refl _⟩

/-- Pre-state for the C6 witness: one committed and applied entry. -/
def c6wState : RaftState :=
  { baseState with
      currentTerm := 1
      logs := [⟨1, 1, []⟩]
      commitIndex := 1
      lastApplied := 1 }

/-- Request for the C6 witness: appends entry 2 and raises leaderCommit to 2. -/
def c6wReq : AppendEntriesRequest :=
  { term := 1, leaderId := 2, prevLogId := 1, prevLogTerm := 1,
    entries := [⟨2, 1, []⟩], leaderCommitId := 2 }

/-- Witness for C6 amended at a concrete input. -/
theorem C6_invariant_preserved_witness :
    (appendEntries c6wState c6wReq).2.lastApplied
        ≤ (appendEntries c6wState c6wReq).2.commitIndex ∧
    (appendEntries c6wState c6wReq).2.commitIndex
        ≤ (getLastLog (appendEntries c6wState c6wReq).2.logs).1 ∧
    c6wState.commitIndex ≤ (appendEntries c6wState c6wReq).2.commitIndex :=
  C6_invariant_preserved c6wState c6wReq (by decide) (by decide) (Or.inr (by decide))

/-! Claim C7. -/

/-- C7: the claim (spec §8) says a single-node cluster treats itself as an immediate
majority: the election ends with the node Leader of term 1 without any vote reply, and
a client command commits without AppendEntries traffic.  In the code the majority test
(raft.go line 401) runs only inside handleVoteResult and commit advancement only inside
handleAppendEntriesResult, neither of which ever executes when peers is empty: after
voteForSelf the election phase with zero replies leaves the node a Candidate of term 1
even though its tally (1) already exceeds votesNeeded (0), and applyCommand on a forced
leader leaves commitIndex at 0. -/
theorem C7_single_node_election_stalls :
    (electionPhase (newRaft 1 []) []).2 = 1 ∧
    ((newRaft 1 []).peers.length + 1) / 2 < (electionPhase (newRaft 1 []) []).2 ∧
    (electionPhase (newRaft 1 []) []).1.state = Role.Candidate ∧
    (electionPhase (newRaft 1 []) []).1.state ≠ Role.Leader ∧
    (electionPhase (newRaft 1 []) []).1.currentTerm = 1 ∧
    (applyCommand { (electionPhase (newRaft 1 []) []).1 with state := Role.Leader }
        [1]).2.commitIndex = 0 := by
  refine ⟨by decide, by decide, by decide, by decide, by decide, by decide⟩

/-! Claim C8. -/

/-- A request with an empty entries list never changes the log, whatever the outcome. -/
theorem appendEntries_logs_of_no_entries (s : RaftState) (req : AppendEntriesRequest)
    (h : req.entries = []) : (appendEntries s req).2.logs = s.logs := by
  by_cases hterm : req.term < s.currentTerm
  · rw [appendEntries_eq_reject_term s req hterm]
  · by_cases hchk : consistencyFails (stepDown s req.term) req
    · rw [appendEntries_eq_reject_consistency s req hterm hchk]
      exact stepDown_logs s req.term
    · rw [appendEntries_eq_accept s req hterm hchk]
      dsimp only
      rw [updateCommitFromLeader_logs, applyEntriesToLog_logs]
      simp [h, stepDown_logs]

/-- C8: an AppendEntries request whose entries list is empty leaves the log unchanged,
and delivering the same request twice (with entry ids above prevLogId, as every request
built by broadcastAppendEntries satisfies) leaves the log and commitIndex exactly as
after the first delivery. -/
theorem C8_appendEntries_idempotent (s : RaftState) (req : AppendEntriesRequest)
    (hids : ∀ e ∈ req.entries, req.prevLogId < e.id) :
    (req.entries = [] → (appendEntries s req).2.logs = s.logs) ∧
    (appendEntries (appendEntries s req).2 req).2.logs
        = (appendEntries s req).2.logs ∧
    (appendEntries (appendEntries s req).2 req).2.commitIndex
        = (appendEntries s req).2.commitIndex := by
  refine ⟨fun h => appendEntries_logs_of_no_entries s req h, ?_⟩
  by_cases hterm : req.term < s.currentTerm
  · rw [appendEntries_eq_reject_term s req hterm]
    dsimp only
    rw [appendEntries_eq_reject_term s req hterm]
    exact ⟨rfl, rfl⟩
  · have hcur : s.currentTerm ≤ req.term := Nat.not_lt.mp hterm
    have hs1t : (stepDown s req.term).currentTerm = req.term :=
      stepDown_currentTerm_of_le s req.term hcur
    have hs1st : (stepDown s req.term).state = Role.Follower :=
      stepDown_state_of_le s req.term hcur
    have hs1l : (stepDown s req.term).logs = s.logs := stepDown_logs s req.term
    by_cases hchk : consistencyFails (stepDown s req.term) req
    · rw [appendEntries_eq_reject_consistency s req hterm hchk]
      dsimp only
      have hterm2 : ¬ req.term < (stepDown s req.term).currentTerm := by
        rw [hs1t]; exact Nat.lt_irrefl _
      have hsd2 : stepDown (stepDown s req.term) req.term = stepDown s req.term :=
        stepDown_eq_self _ _ hs1t hs1st
      have hchk2 : consistencyFails (stepDown (stepDown s req.term) req.term) req := by
        rw [hsd2]; exact hchk
      rw [appendEntries_eq_reject_consistency _ req hterm2 hchk2]
      dsimp only
      rw [hsd2]
      exact ⟨rfl, rfl⟩
    · rw [appendEntries_eq_accept s req hterm hchk]
      dsimp only
      set s1 := stepDown s req.term with hs1def
      set s2 := applyEntriesToLog s1 req with hs2def
      set s3 := updateCommitFromLeader s2 req with hs3def
      have h3t : s3.currentTerm = req.term := by
        rw [hs3def, updateCommitFromLeader_currentTerm, hs2def,
          applyEntriesToLog_currentTerm]
        exact hs1t
      have h3st : s3.state = Role.Follower := by
        rw [hs3def, updateCommitFromLeader_state, hs2def, applyEntriesToLog_state]
        exact hs1st
      have h3logs : s3.logs = s2.logs := by
        rw [hs3def, updateCommitFromLeader_logs]
      have h2logs : s2.logs
          = (if req.entries ≠ [] then deleteLogs s.logs req.prevLogId ++ req.entries
             else s.logs) := by
        rw [hs2def, applyEntriesToLog_logs, hs1l]
      have hterm2 : ¬ req.term < s3.currentTerm := by
        rw [h3t]; exact Nat.lt_irrefl _
      have hsd3 : stepDown s3 req.term = s3 := stepDown_eq_self s3 req.term h3t h3st
      have hget3 : getLog s3.logs req.prevLogId = getLog s.logs req.prevLogId := by
        rw [h3logs, h2logs]
        split
        · exact getLog_after_update _ _ _ hids
        · rfl
      have hchk3 : ¬ consistencyFails (stepDown s3 req.term) req := by
        rw [hsd3]
        intro hx
        apply hchk
        unfold consistencyFails at hx ⊢
        rw [hs1l, ← hget3]
        exact hx
      rw [appendEntries_eq_accept s3 req hterm2 hchk3]
      dsimp only
      rw [hsd3]
      set s4 := applyEntriesToLog s3 req with hs4def
      have h4logs : s4.logs = s3.logs := by
        rw [hs4def, applyEntriesToLog_logs, h3logs, h2logs]
        by_cases he : req.entries = []
        · simp [he]
        · rw [if_pos he, if_pos he, deleteLogs_after_update _ _ _ hids]
      have h4ci : s4.commitIndex = s3.commitIndex := by
        rw [hs4def, applyEntriesToLog_commitIndex]
      constructor
      · rw [updateCommitFromLeader_logs, h4logs]
      · rw [updateCommitFromLeader_commitIndex, h4ci, h4logs, h3logs]
        have h3ci : s3.commitIndex
            = (if s2.commitIndex < req.leaderCommitId
               then (if req.leaderCommitId < (getLastLog s2.logs).1
                     then req.leaderCommitId else (getLastLog s2.logs).1)
               else s2.commitIndex) := by
          rw [hs3def, updateCommitFromLeader_commitIndex]
        rw [h3ci]
        split_ifs <;> omega

/-- A concrete state for the C8 witness. -/
def c8wState : RaftState := { baseState with currentTerm := 1, logs := [⟨1, 1, []⟩] }

/-- A concrete request for the C8 witness: appends entry 2 on top of entry 1 and raises
the leader commit. -/
def c8wReq : AppendEntriesRequest :=
  { term := 1, leaderId := 2, prevLogId := 1, prevLogTerm := 1,
    entries := [⟨2, 1, []⟩], leaderCommitId := 2 }

/-- Witness for C8 at a concrete input. -/
theorem C8_appendEntries_idempotent_witness :
    (c8wReq.entries = [] → (appendEntries c8wState c8wReq).2.logs = c8wState.logs) ∧
    (appendEntries (appendEntries c8wState c8wReq).2 c8wReq).2.logs
        = (appendEntries c8wState c8wReq).2.logs ∧
    (appendEntries (appendEntries c8wState c8wReq).2 c8wReq).2.commitIndex
        = (appendEntries c8wState c8wReq).2.commitIndex :=
  C8_appendEntries_idempotent c8wState c8wReq (by decide)

/-! Claims C9 and C10. -/

/-- C9: ApplyCommand on a non-leader fails with errNotLeader and returns the state
untouched; on the leader it appends exactly one entry with id = lastLogId + 1,
term = currentTerm and the given payload, and returns that entry immediately. -/
theorem C9_applyCommand_leader_gate (s : RaftState) (d : List Nat) :
    (s.state ≠ Role.Leader →
      applyCommand s d = (Except.error RaftError.errNotLeader, s)) ∧
    (s.state = Role.Leader →
      applyCommand s d
        = (Except.ok ⟨(getLastLog s.logs).1 + 1, s.currentTerm, d⟩,
           { s with logs := s.logs ++ [⟨(getLastLog s.logs).1 + 1, s.currentTerm, d⟩] })) := by
  constructor
  · intro h
    simp [applyCommand, h]
  · intro h
    simp [applyCommand, h, appendLogs]

/-- Witness for C9: a follower is rejected with its state returned unchanged, and a
leader at term 0 with an empty log appends entry (1, 0, payload). -/
theorem C9_applyCommand_leader_gate_witness :
    applyCommand baseState [7] = (Except.error RaftError.errNotLeader, baseState) ∧
    applyCommand { baseState with state := Role.Leader } [7]
      = (Except.ok ⟨1, 0, [7]⟩,
         { baseState with state := Role.Leader, logs := [⟨1, 0, [7]⟩] }) :=
  ⟨(C9_applyCommand_leader_gate baseState [7]).1 (by decide),
   (C9_applyCommand_leader_gate { baseState with state := Role.Leader } [7]).2 rfl⟩

/-- C10: on the leader, applyCommand only appends one entry at the end of the log;
currentTerm, votedFor, commitIndex, lastApplied, role, nextIndex, matchIndex and every
pre-existing log entry are unchanged, no truncation happens and the commit index does
not move. -/
theorem C10_applyCommand_frame (s : RaftState) (d : List Nat)
    (h : s.state = Role.Leader) :
    (applyCommand s d).2.currentTerm = s.currentTerm ∧
    (applyCommand s d).2.votedFor = s.votedFor ∧
    (applyCommand s d).2.commitIndex = s.commitIndex ∧
    (applyCommand s d).2.lastApplied = s.lastApplied ∧
    (applyCommand s d).2.state = s.state ∧
    (applyCommand s d).2.nextIndex = s.nextIndex ∧
    (applyCommand s d).2.matchIndex = s.matchIndex ∧
    (applyCommand s d).2.logs
        = s.logs ++ [⟨(getLastLog s.logs).1 + 1, s.currentTerm, d⟩] ∧
    (applyCommand s d).2.logs.take s.logs.length = s.logs := by
  have hne : ¬ s.state ≠ Role.Leader := fun hx => hx h
  simp only [applyCommand, if_neg hne, appendLogs]
  simp [List.take_left]

/-- A concrete leader state for the C10 witness. -/
def c10State : RaftState :=
  { baseState with
      state := Role.Leader
      currentTerm := 2
      votedFor := 1
      logs := [⟨1, 1, [5]⟩]
      commitIndex := 1
      lastApplied := 1 }

/-- Witness for C10 at a concrete leader state. -/
theorem C10_applyCommand_frame_witness :
    (applyCommand c10State [9]).2.currentTerm = c10State.currentTerm ∧
    (applyCommand c10State [9]).2.votedFor = c10State.votedFor ∧
    (applyCommand c10State [9]).2.commitIndex = c10State.commitIndex ∧
    (applyCommand c10State [9]).2.lastApplied = c10State.lastApplied ∧
    (applyCommand c10State [9]).2.state = c10State.state ∧
    (applyCommand c10State [9]).2.nextIndex = c10State.nextIndex ∧
    (applyCommand c10State [9]).2.matchIndex = c10State.matchIndex ∧
    (applyCommand c10State [9]).2.logs
        = c10State.logs ++ [⟨(getLastLog c10State.logs).1 + 1, c10State.currentTerm, [9]⟩] ∧
    (applyCommand c10State [9]).2.logs.take c10State.logs.length = c10State.logs :=
  C10_applyCommand_frame c10State [9] rfl

end Raft
